import Mathlib

/-!
Shallow embedding of the feed ranking / ad-targeting engine of the
Django application (feed/models.py, feed/utils_ads.py, feed/utils.py,
feed/utils_posts.py, feed/views.py), together with theorems settling
the specification claims about it.

Conventions of the embedding:
* Python floats (scores, weights, timestamps) are modelled as `ℚ`,
  keeping the arithmetic of the source exact.
* Django rows become Lean structures; the relevant persisted state of an
  operation is passed and returned explicitly.
* `random.choice(lst)` is modelled as `pyChoice lst r`: the caller
  supplies the random draw `r`, and `pyChoice` picks index `r % len`.
  Uniformity statements are phrased by counting which draws select a
  given element.
-/

namespace Feed

/-! ## Data model (feed/models.py) -/

/-- Model of `Post` rows (feed/models.py, class Post): only the fields the claims
touch.  `likes` is an `Int` because the Python attribute is a plain int
and the code guards the floor at 0 itself with `max(0, ...)`. -/
structure Post where
  id : Nat
  title : String
  tags : List String
  likes : Int
deriving DecidableEq, Repr, Inhabited

/-- Model of `Advertisement` rows (feed/models.py, class Advertisement): the
fields used by selection and the campaign-window check. -/
structure Advertisement where
  id : String
  target_audience : List String
  is_active : Bool
  start_date : Option ℚ
  end_date : Option ℚ
deriving DecidableEq, Repr

/-- The `Advertisement.is_campaign_active` property (feed/models.py lines
137-147): active flag AND now within the optional campaign window. -/
def Advertisement.is_campaign_active (ad : Advertisement) (now : ℚ) : Bool :=
  if !ad.is_active then false
  else if (match ad.start_date with
           | some s => decide (now < s)
           | none => false) then false
  else if (match ad.end_date with
           | some e => decide (now > e)
           | none => false) then false
  else true

/-! ## Interest store (feed/models.py lines 179-227) -/

/-- The `INTEREST_WEIGHTS` dict together with the `.get(action_type, 1.0)`
default (feed/models.py lines 180-188 and 200). -/
def INTEREST_WEIGHTS (action_type : String) : ℚ :=
  match action_type with
  | "view_30s" => 1
  | "like" => 1
  | "comment" => 2
  | "share" => 3
  | "save" => 2
  | "view_10s" => 1/2
  | "click_profile" => 3/2
  | _ => 1

/-- Model of `update_user_interest(user, interest, action_type)` (feed/models.py
lines 191-227), as a function of the currently persisted score of the
`(user, interest)` row (`none` = no row yet).  Returns the score stored
back into the row. -/
def update_user_interest (current : Option ℚ) (action_type : String) : ℚ :=
  let weight := INTEREST_WEIGHTS action_type
  match current with
  | none => weight
  | some current_score =>
    let actual_weight :=
      if current_score < 3 then weight
      else if current_score < 6 then weight * (7/10)
      else if current_score < 9 then weight * (4/10)
      else weight * (1/10)
    min 10 (current_score + actual_weight)

/-- The persisted score of one `(user, interest)` pair after a sequence
of `update_user_interest` calls, starting from no row. -/
def scoreAfter (actions : List String) : Option ℚ :=
  actions.foldl (fun cur a => some (update_user_interest cur a)) none

/-! ## Toggle-like (feed/views.py lines 356-423) -/

/-- The persisted state `toggle_like` reads and writes for one
`(user, post)` pair: whether the `PostLike` row exists, and the post's
`likes` counter. -/
structure LikeState where
  likeRowExists : Bool
  likes : Int
deriving DecidableEq, Repr

/-- What one `toggle_like` request does: the new persisted state, the
`action` string of the JSON response, the `user_has_liked` flag, and the
list of `action_type` arguments of the `process_user_interaction` calls
the view makes (the view in feed/views.py makes none). -/
structure ToggleResult where
  state : LikeState
  action : String
  user_has_liked : Bool
  process_interaction_calls : List String
deriving DecidableEq, Repr

/-- Model of `toggle_like` (feed/views.py lines 356-423), success path: reads the
current existence of the `PostLike` row, then either deletes it and
decrements `post.likes` with `max(0, post.likes - 1)`, or creates it and
increments `post.likes`.  No call to `process_user_interaction` occurs
anywhere in the view. -/
def toggle_like (s : LikeState) : ToggleResult :=
  if s.likeRowExists then
    { state := { likeRowExists := false, likes := max 0 (s.likes - 1) },
      action := "unliked", user_has_liked := false,
      process_interaction_calls := [] }
  else
    { state := { likeRowExists := true, likes := s.likes + 1 },
      action := "liked", user_has_liked := true,
      process_interaction_calls := [] }

/-- Modelled from the spec (section 4.2): the toggle-like state machine
as the specification words it, including the `process_interaction(user,
post, 'like'/'unlike')` call the spec requires.  Used only to compare
against the `toggle_like` embedded from the source. -/
def toggle_like_spec (s : LikeState) : ToggleResult :=
  if s.likeRowExists then
    { state := { likeRowExists := false, likes := max 0 (s.likes - 1) },
      action := "unliked", user_has_liked := false,
      process_interaction_calls := ["unlike"] }
  else
    { state := { likeRowExists := true, likes := s.likes + 1 },
      action := "liked", user_has_liked := true,
      process_interaction_calls := ["like"] }

/-! ## Ad catalog cache and ad selection (feed/utils_ads.py) -/

/-- The constant `CACHE_TIMEOUT = 300` (feed/utils_ads.py line 13). -/
def CACHE_TIMEOUT : ℚ := 300

/-- The module-level globals `_ad_cache` and `_ad_cache_time`
(feed/utils_ads.py lines 11-12). -/
structure AdCacheState where
  ad_cache : Option (List Advertisement)
  ad_cache_time : ℚ
deriving DecidableEq, Repr

/-- The initial value of the globals: `_ad_cache = None`,
`_ad_cache_time = 0`. -/
def initialAdCacheState : AdCacheState :=
  { ad_cache := none, ad_cache_time := 0 }

/-- Model of `clear_ad_cache()` (feed/utils_ads.py lines 79-84): reset both
globals. -/
def clear_ad_cache : AdCacheState :=
  { ad_cache := none, ad_cache_time := 0 }

/-- The cache rebuild body (feed/utils_ads.py lines 31-38): fetch all
ads with `is_active=True` from the store, keep those whose
`is_campaign_active` property holds now. -/
def rebuildActiveAds (store : List Advertisement) (now : ℚ) : List Advertisement :=
  (store.filter (fun ad => ad.is_active)).filter
    (fun ad => ad.is_campaign_active now)

/-- Result of one pass through the cache logic: the campaign-active list
used, the new globals, and whether the store was re-queried. -/
structure ActiveAdsResult where
  ads : List Advertisement
  state : AdCacheState
  rebuilt : Bool
deriving DecidableEq, Repr

/-- The cache check-and-refresh prologue of `get_targeted_ad`
(feed/utils_ads.py lines 26-50); the spec calls it
`AdCatalogCache.get_active_ads()`.  Rebuild iff `_ad_cache is None` or
`current_time - _ad_cache_time > CACHE_TIMEOUT`. -/
def get_active_ads (store : List Advertisement) (now : ℚ)
    (st : AdCacheState) : ActiveAdsResult :=
  if st.ad_cache = none ∨ now - st.ad_cache_time > CACHE_TIMEOUT then
    let campaign_active_ads := rebuildActiveAds store now
    { ads := campaign_active_ads,
      state := { ad_cache := some campaign_active_ads, ad_cache_time := now },
      rebuilt := true }
  else
    { ads := st.ad_cache.getD [], state := st, rebuilt := false }

/-- The `user_interests` argument of `get_targeted_ad`: either a Django
`QuerySet` of `UserInterest` rows (which has an `exists()` method) or a
plain Python list of them (which does not).  Both are represented by
their list of interest-name strings. -/
inductive PyInterests where
  | qs (interests : List String)
  | pylist (interests : List String)
deriving DecidableEq, Repr

/-- Python truthiness of the argument (`if user_interests`): both a
QuerySet and a list are truthy iff non-empty. -/
def PyInterests.truthy : PyInterests → Bool
  | .qs l => !l.isEmpty
  | .pylist l => !l.isEmpty

/-- Model of `hasattr(user_interests, 'exists')`: true for a QuerySet, false for
a plain list. -/
def PyInterests.hasExistsAttr : PyInterests → Bool
  | .qs _ => true
  | .pylist _ => false

/-- Model of `user_interests.exists()` (only ever called when the attribute is
present): non-emptiness. -/
def PyInterests.existsQuery : PyInterests → Bool
  | .qs l => !l.isEmpty
  | .pylist l => !l.isEmpty

/-- Model of `[interest.interest for interest in user_interests]`
(feed/utils_ads.py line 58). -/
def PyInterests.interest_names : PyInterests → List String
  | .qs l => l
  | .pylist l => l

/-- Model of `len(set(ad.target_audience) & set(interest_names))`
(feed/utils_ads.py line 63): the number of distinct audience tags also
present among the interest names. -/
def numMatches (ad : Advertisement) (interest_names : List String) : Nat :=
  ((ad.target_audience.dedup).filter
    (fun t => decide (t ∈ interest_names))).length

/-- The weighted candidate pool `targeted_ads` (feed/utils_ads.py lines
60-65): each campaign-active ad with a truthy `target_audience` is
appended `len(matches)` times. -/
def targetedPool (interest_names : List String)
    (campaign_active_ads : List Advertisement) : List Advertisement :=
  campaign_active_ads.flatMap (fun ad =>
    if ad.target_audience ≠ [] then
      if numMatches ad interest_names ≠ 0 then
        List.replicate (numMatches ad interest_names) ad
      else []
    else [])

instance : Inhabited Advertisement :=
  ⟨{ id := "", target_audience := [], is_active := false,
     start_date := none, end_date := none }⟩

/-- Model of `random.choice(lst)` given the random draw `r`: index `r % len`.
For a uniformly distributed `r` over `[0, len)` this is a uniform pick
from the list. -/
def pyChoice [Inhabited α] (l : List α) (r : Nat) : α :=
  l.getD (r % l.length) default

/-- The selection part of `get_targeted_ad` (feed/utils_ads.py lines
52-76), after the cache gave the campaign-active list: `None` on an
empty list; the weighted-pool branch only when the argument is truthy
AND has an `exists` attribute AND `exists()` holds; otherwise (or when
the pool is empty) a uniform pick from all campaign-active ads. -/
def selectFromActive (campaign_active_ads : List Advertisement)
    (user_interests : PyInterests) (r : Nat) : Option Advertisement :=
  if campaign_active_ads.isEmpty then none
  else if user_interests.truthy && user_interests.hasExistsAttr
           && user_interests.existsQuery then
    let targeted_ads :=
      targetedPool user_interests.interest_names campaign_active_ads
    if !targeted_ads.isEmpty then some (pyChoice targeted_ads r)
    else some (pyChoice campaign_active_ads r)
  else some (pyChoice campaign_active_ads r)

/-- Result of `get_targeted_ad`: the ad (or `None`) and the new cache
globals. -/
structure TargetedAdResult where
  ad : Option Advertisement
  state : AdCacheState
deriving DecidableEq, Repr

/-- Model of `get_targeted_ad(user, user_interests)` (feed/utils_ads.py lines
16-76): cache prologue followed by selection. -/
def get_targeted_ad (store : List Advertisement) (now : ℚ)
    (st : AdCacheState) (user_interests : PyInterests) (r : Nat) :
    TargetedAdResult :=
  let res := get_active_ads store now st
  { ad := selectFromActive res.ads user_interests r, state := res.state }

/-- Model of `get_user_interests` of feed/utils_ads.py (lines 87-121): both the
fresh path (`list(QuerySet)`) and the cached path return a plain Python
list of `UserInterest` rows. -/
def get_user_interests_cached (stored : List String) : PyInterests :=
  PyInterests.pylist stored

/-! ## Feed mixer (feed/utils_ads.py lines 124-172,
feed/utils_posts.py lines 174-234) -/

/-- An element of the mixed output list: a post or an ad marked
`type='advertisement'`. -/
inductive FeedItem where
  | post (p : Post)
  | ad (a : Advertisement)
deriving DecidableEq, Repr

/-- Project a feed item back to the post it carries, if any. -/
def FeedItem.asPost : FeedItem → Option Post
  | .post p => some p
  | .ad _ => none

/-- Whether a feed item is an inserted advertisement. -/
def FeedItem.isAd : FeedItem → Bool
  | .post _ => false
  | .ad _ => true

/-- The mixing loop shared by `mix_posts_with_ads` and
`mix_smart_posts_with_ads`: `for i, post in enumerate(post_list)`,
append the post, and when `(i + 1) % ads_frequency == 0` consult ad
selection (abstracted as `getAd`, indexed by the 1-based position) and
append the ad if one came back. -/
def mixGo (ads_frequency : Nat) (getAd : Nat → Option Advertisement) :
    Nat → List Post → List FeedItem
  | _, [] => []
  | i, p :: rest =>
    FeedItem.post p ::
      (if (i + 1) % ads_frequency = 0 then
        match getAd (i + 1) with
        | some a => FeedItem.ad a :: mixGo ads_frequency getAd (i + 1) rest
        | none => mixGo ads_frequency getAd (i + 1) rest
      else mixGo ads_frequency getAd (i + 1) rest)

/-- Model of `mix_posts_with_ads(posts, user, ads_frequency)` (feed/utils_ads.py
lines 124-172), with ad selection abstracted as `getAd`. -/
def mix_posts_with_ads (posts : List Post) (ads_frequency : Nat)
    (getAd : Nat → Option Advertisement) : List FeedItem :=
  mixGo ads_frequency getAd 0 posts

/-- Model of `mix_smart_posts_with_ads(posts_queryset, user, posts_per_page,
ads_frequency)` (feed/utils_posts.py lines 174-234): truncates the input
with `posts_queryset[:posts_per_page]` and then runs the same loop. -/
def mix_smart_posts_with_ads (posts : List Post) (posts_per_page : Nat)
    (ads_frequency : Nat) (getAd : Nat → Option Advertisement) :
    List FeedItem :=
  mixGo ads_frequency getAd 0 (posts.take posts_per_page)

/-- Number of inserted ads in a mixed output. -/
def countAds (l : List FeedItem) : Nat :=
  (l.filter FeedItem.isAd).length

/-! ## Ad impression tracking (feed/models.py lines 347-539) -/

/-- Model of `AdImpression` rows (feed/models.py lines 347-423): the fields the
claims touch. -/
structure AdImpressionRow where
  ad_id : String
  view_duration : ℚ
  viewport_percentage : ℚ
  impression_start : ℚ
  impression_end : Option ℚ
  is_valid_impression : Bool
  counted_in_analytics : Bool
deriving DecidableEq, Repr

/-- Model of `create_ad_impression(advertisement, user, request)` (feed/models.py
lines 449-498): `AdImpression.objects.create(...)` passes only user,
advertisement, session/agent/ip, so the remaining fields take the model
defaults: `view_duration=0.0`, `viewport_percentage=0.0`,
`impression_start=now` (auto_now_add), `impression_end=None`,
`is_valid_impression=True` (field default, feed/models.py line 397),
`counted_in_analytics=False`. -/
def create_ad_impression (ad_id : String) (now : ℚ) : AdImpressionRow :=
  { ad_id := ad_id, view_duration := 0, viewport_percentage := 0,
    impression_start := now, impression_end := none,
    is_valid_impression := true, counted_in_analytics := false }

/-- Model of `AdImpression.mark_as_ended(duration_seconds)` (feed/models.py lines
436-444): set the end time, optionally overwrite the duration, then set
`is_valid_impression = view_duration >= 1.0`. -/
def mark_as_ended (row : AdImpressionRow) (now : ℚ)
    (duration_seconds : Option ℚ) : AdImpressionRow :=
  let row' := { row with impression_end := some now,
                         view_duration := duration_seconds.getD row.view_duration }
  { row' with is_valid_impression := decide (row'.view_duration ≥ 1) }

/-- Model of `update_ad_impression_duration(impression_id, duration_seconds,
viewport_percentage)` (feed/models.py lines 511-539), found-row path:
set the duration, the viewport when given, the validity flag
`duration_seconds >= 1.0`, then `mark_as_ended(duration_seconds)`. -/
def update_ad_impression_duration (row : AdImpressionRow)
    (duration_seconds : ℚ) (viewport_percentage : Option ℚ) (now : ℚ) :
    AdImpressionRow :=
  let row' := { row with view_duration := duration_seconds }
  let row'' :=
    match viewport_percentage with
    | some v => { row' with viewport_percentage := v }
    | none => row'
  let row''' :=
    { row'' with is_valid_impression := decide (duration_seconds ≥ 1) }
  mark_as_ended row''' now (some duration_seconds)

end Feed

namespace Feed

/-! ## Interest-store lemmas -/

theorem interest_weight_bounds (a : String) :
    0 < INTEREST_WEIGHTS a ∧ INTEREST_WEIGHTS a ≤ 3 := by
  unfold INTEREST_WEIGHTS
  split <;> norm_num

theorem update_user_interest_mem (cur : Option ℚ) (a : String)
    (h : ∀ s, cur = some s → 0 ≤ s ∧ s ≤ 10) :
    0 ≤ update_user_interest cur a ∧ update_user_interest cur a ≤ 10 := by
  obtain ⟨hw, hw3⟩ := interest_weight_bounds a
  cases cur with
  | none =>
    constructor
    · simp only [update_user_interest]
      linarith
    · simp only [update_user_interest]
      linarith
  | some s =>
    obtain ⟨h0, h10⟩ := h s rfl
    have haw : 0 ≤ (if s < 3 then INTEREST_WEIGHTS a
        else if s < 6 then INTEREST_WEIGHTS a * (7/10)
        else if s < 9 then INTEREST_WEIGHTS a * (4/10)
        else INTEREST_WEIGHTS a * (1/10)) := by
      split_ifs <;> nlinarith
    constructor
    · simp only [update_user_interest]
      exact le_min (by norm_num) (by linarith)
    · simp only [update_user_interest]
      exact min_le_left _ _

theorem scoreAfter_go (acts : List String) (cur : Option ℚ)
    (h : ∀ s, cur = some s → 0 ≤ s ∧ s ≤ 10) :
    ∀ s, acts.foldl (fun c a => some (update_user_interest c a)) cur = some s →
      0 ≤ s ∧ s ≤ 10 := by
  induction acts generalizing cur with
  | nil =>
    intro s hs
    exact h s hs
  | cons a rest ih =>
    intro s hs
    refine ih (some (update_user_interest cur a)) ?_ s hs
    intro t ht
    have := Option.some.inj ht
    subst this
    exact update_user_interest_mem cur a h

/-- C3: for every interest tag and every finite sequence of
`apply_interaction` (`update_user_interest`) calls, known or unknown
action types mixed, the persisted `InterestScore.score` after each call
lies in `[0, 10]` (every intermediate state is `scoreAfter` of some
prefix of the call sequence). -/
theorem interest_score_clamped (actions : List String) (s : ℚ)
    (h : scoreAfter actions = some s) : 0 ≤ s ∧ s ≤ 10 :=
  scoreAfter_go actions none (by simp) s h

/-- Witness for `interest_score_clamped` at the concrete sequence
`["like", "share"]`, whose resulting score is 4. -/
theorem interest_score_clamped_witness :
    scoreAfter ["like", "share"] = some 4 ∧ 0 ≤ (4 : ℚ) ∧ (4 : ℚ) ≤ 10 :=
  ⟨by norm_num [scoreAfter, update_user_interest, INTEREST_WEIGHTS],
   interest_score_clamped ["like", "share"] 4
     (by norm_num [scoreAfter, update_user_interest, INTEREST_WEIGHTS])⟩

/-- C4: the weight table with its default for unknown action types;
creation stores `score = weight`; an existing row with score `s` gets
the band-adjusted weight (`×1` below 3, `×0.7` on `[3,6)`, `×0.4` on
`[6,9)`, `×0.1` from 9 up) and the new score is
`min 10 (s + adjusted)`. -/
theorem apply_interaction_weights_and_bands :
    (INTEREST_WEIGHTS "view_30s" = 1 ∧ INTEREST_WEIGHTS "like" = 1 ∧
     INTEREST_WEIGHTS "comment" = 2 ∧ INTEREST_WEIGHTS "share" = 3 ∧
     INTEREST_WEIGHTS "save" = 2 ∧ INTEREST_WEIGHTS "view_10s" = 1/2 ∧
     INTEREST_WEIGHTS "click_profile" = 3/2) ∧
    (∀ a : String, a ≠ "view_30s" → a ≠ "like" → a ≠ "comment" →
      a ≠ "share" → a ≠ "save" → a ≠ "view_10s" → a ≠ "click_profile" →
      INTEREST_WEIGHTS a = 1) ∧
    (∀ a : String, update_user_interest none a = INTEREST_WEIGHTS a) ∧
    (∀ (a : String) (s : ℚ), s < 3 →
      update_user_interest (some s) a = min 10 (s + INTEREST_WEIGHTS a * 1)) ∧
    (∀ (a : String) (s : ℚ), 3 ≤ s → s < 6 →
      update_user_interest (some s) a = min 10 (s + INTEREST_WEIGHTS a * (7/10))) ∧
    (∀ (a : String) (s : ℚ), 6 ≤ s → s < 9 →
      update_user_interest (some s) a = min 10 (s + INTEREST_WEIGHTS a * (4/10))) ∧
    (∀ (a : String) (s : ℚ), 9 ≤ s →
      update_user_interest (some s) a = min 10 (s + INTEREST_WEIGHTS a * (1/10))) := by
  refine ⟨⟨rfl, rfl, rfl, rfl, rfl, rfl, rfl⟩, ?_, ?_, ?_, ?_, ?_, ?_⟩
  · intro a h1 h2 h3 h4 h5 h6 h7
    unfold INTEREST_WEIGHTS
    split <;> simp_all
  · intro a
    simp [update_user_interest]
  · intro a s h3
    simp only [update_user_interest]
    rw [if_pos h3, mul_one]
  · intro a s h3 h6
    simp only [update_user_interest]
    rw [if_neg (not_lt.mpr h3), if_pos h6]
  · intro a s h6 h9
    simp only [update_user_interest]
    rw [if_neg (not_lt.mpr (by linarith)), if_neg (not_lt.mpr h6), if_pos h9]
  · intro a s h9
    simp only [update_user_interest]
    rw [if_neg (not_lt.mpr (by linarith)), if_neg (not_lt.mpr (by linarith)),
      if_neg (not_lt.mpr h9)]

/-- Witness for `apply_interaction_weights_and_bands`: the unknown
action `"view"` defaults to weight 1, and a row at score 4 receives the
`[3,6)` band factor. -/
theorem apply_interaction_weights_and_bands_witness :
    INTEREST_WEIGHTS "view" = 1 ∧
    update_user_interest (some 4) "share" =
      min 10 (4 + INTEREST_WEIGHTS "share" * (7/10)) :=
  ⟨apply_interaction_weights_and_bands.2.1 "view" (by decide) (by decide)
     (by decide) (by decide) (by decide) (by decide) (by decide),
   apply_interaction_weights_and_bands.2.2.2.2.1 "share" 4 (by norm_num)
     (by norm_num)⟩

/-! ## Toggle-like theorems -/

/-- C2 counterexample: on the like transition from the empty state the
view makes no `process_user_interaction` call at all, so the claimed
call with action `'like'` does not happen, and the source behavior
differs from the spec's state machine at this input. -/
theorem toggle_like_counterexample :
    (toggle_like { likeRowExists := false, likes := 0 }).process_interaction_calls = [] ∧
    (toggle_like { likeRowExists := false, likes := 0 }).process_interaction_calls ≠ ["like"] ∧
    toggle_like { likeRowExists := false, likes := 0 } ≠
      toggle_like_spec { likeRowExists := false, likes := 0 } := by
  decide

/-- C2 amended: `toggle_like`, computed from the current persisted
existence of the `PostLike` row, creates the row and increments
`post.likes` by 1 when absent, deletes the row and decrements
`post.likes` floored at 0 when present — and in neither branch calls
`process_user_interaction`. -/
theorem toggle_like_behavior (s : LikeState) :
    (s.likeRowExists = false →
      toggle_like s =
        { state := { likeRowExists := true, likes := s.likes + 1 },
          action := "liked", user_has_liked := true,
          process_interaction_calls := [] }) ∧
    (s.likeRowExists = true →
      toggle_like s =
        { state := { likeRowExists := false, likes := max 0 (s.likes - 1) },
          action := "unliked", user_has_liked := false,
          process_interaction_calls := [] }) := by
  constructor <;> intro h <;> simp [toggle_like, h]

/-- Witness for `toggle_like_behavior` at a concrete unliked state with
5 likes. -/
theorem toggle_like_behavior_witness :
    toggle_like { likeRowExists := false, likes := 5 } =
      { state := { likeRowExists := true, likes := 5 + 1 },
        action := "liked", user_has_liked := true,
        process_interaction_calls := [] } :=
  (toggle_like_behavior { likeRowExists := false, likes := 5 }).1 rfl

/-! ## Ad impression theorems -/

/-- C8: evaluating the impression lifecycle.  `create_ad_impression`
stores start time `now`, duration 0 and `is_valid_impression = true`
(the model-field default) — not `false` as specified — even though the
duration 0 is below the 1-second validity threshold the field's own
help text names; `update_ad_impression_duration` then sets the end
time, duration, viewport, and `valid ↔ duration ≥ 1` exactly as
specified. -/
theorem impression_validity_flag :
    (create_ad_impression "ad_001" 100).impression_start = 100 ∧
    (create_ad_impression "ad_001" 100).view_duration = 0 ∧
    (create_ad_impression "ad_001" 100).is_valid_impression = true ∧
    ¬((create_ad_impression "ad_001" 100).view_duration ≥ 1) ∧
    (update_ad_impression_duration (create_ad_impression "ad_001" 100)
        (1/2) (some (8/10)) 105).is_valid_impression = false ∧
    (update_ad_impression_duration (create_ad_impression "ad_001" 100)
        3 (some (8/10)) 105).is_valid_impression = true ∧
    (update_ad_impression_duration (create_ad_impression "ad_001" 100)
        3 (some (8/10)) 105).impression_end = some 105 ∧
    (update_ad_impression_duration (create_ad_impression "ad_001" 100)
        3 (some (8/10)) 105).view_duration = 3 ∧
    (update_ad_impression_duration (create_ad_impression "ad_001" 100)
        3 (some (8/10)) 105).viewport_percentage = 8/10 := by
  norm_num [create_ad_impression, update_ad_impression_duration, mark_as_ended]

end Feed

namespace Feed

/-! ## Mixer lemmas -/

theorem mixGo_filterMap (N : Nat) (f : Nat → Option Advertisement) :
    ∀ (i : Nat) (ps : List Post),
      (mixGo N f i ps).filterMap FeedItem.asPost = ps := by
  intro i ps
  induction ps generalizing i with
  | nil => rfl
  | cons p rest ih =>
    by_cases h : (i + 1) % N = 0
    · cases hf : f (i + 1) with
      | some a => simp [mixGo, h, hf, FeedItem.asPost, ih]
      | none => simp [mixGo, h, hf, FeedItem.asPost, ih]
    · simp [mixGo, h, FeedItem.asPost, ih]

theorem mixGo_countAds (N : Nat) (f : Nat → Option Advertisement) :
    ∀ (i : Nat) (ps : List Post),
      countAds (mixGo N f i ps) =
        ((List.range' (i + 1) ps.length).filter
          (fun pos => decide (pos % N = 0) && (f pos).isSome)).length := by
  intro i ps
  induction ps generalizing i with
  | nil => rfl
  | cons p rest ih =>
    have hr : List.range' (i + 1) (rest.length + 1) =
        (i + 1) :: List.range' (i + 2) rest.length := rfl
    by_cases h : (i + 1) % N = 0
    · cases hf : f (i + 1) with
      | some a =>
        simp [countAds, mixGo, h, hf, hr, FeedItem.isAd, List.filter,
          ← ih (i + 1) ]
      | none =>
        simp [countAds, mixGo, h, hf, hr, FeedItem.isAd, List.filter,
          ← ih (i + 1)]
    · simp [countAds, mixGo, h, hr, FeedItem.isAd, List.filter, ← ih (i + 1)]

theorem mixGo_length (N : Nat) (f : Nat → Option Advertisement) :
    ∀ (i : Nat) (ps : List Post),
      (mixGo N f i ps).length = ps.length + countAds (mixGo N f i ps) := by
  intro i ps
  induction ps generalizing i with
  | nil => rfl
  | cons p rest ih =>
    by_cases h : (i + 1) % N = 0
    · cases hf : f (i + 1) with
      | some a =>
        simp only [mixGo, h, if_pos, hf]
        simp [countAds, FeedItem.isAd, List.filter, ih (i + 1)]
        omega
      | none =>
        simp only [mixGo, h, if_pos, hf]
        simp [countAds, FeedItem.isAd, List.filter, ih (i + 1)]
        omega
    · simp only [mixGo, h, if_neg, ite_false]
      simp [countAds, FeedItem.isAd, List.filter, ih (i + 1)]
      omega

theorem multiples_in_range' (N : Nat) :
    ∀ (M s : Nat),
      ((List.range' (s + 1) M).filter (fun pos => decide (pos % N = 0))).length =
        (s + M) / N - s / N := by
  intro M
  induction M with
  | zero => simp
  | succ M' ih =>
    intro s
    have hr : List.range' (s + 1) (M' + 1) =
        (s + 1) :: List.range' (s + 2) M' := rfl
    have hdiv : (s + 1) / N = s / N + if N ∣ s + 1 then 1 else 0 :=
      Nat.succ_div s N
    have hmono : s / N ≤ (s + 1) / N := Nat.div_le_div_right (by omega)
    have hmono2 : (s + 1) / N ≤ (s + 1 + M') / N := Nat.div_le_div_right (by omega)
    have hmod : (s + 1) % N = 0 ↔ N ∣ s + 1 := Nat.dvd_iff_mod_eq_zero.symm
    have hsum : s + (M' + 1) = s + 1 + M' := by omega
    rw [hsum]
    by_cases h : (s + 1) % N = 0
    · have hd : N ∣ s + 1 := hmod.mp h
      rw [if_pos hd] at hdiv
      rw [hr, List.filter_cons, if_pos (by simp [h]), List.length_cons,
        ih (s + 1)]
      omega
    · have hd : ¬ N ∣ s + 1 := fun hc => h (hmod.mpr hc)
      rw [if_neg hd] at hdiv
      rw [hr, List.filter_cons, if_neg (by simp [h]), ih (s + 1)]
      omega

theorem mixGo_none (N : Nat) (f : Nat → Option Advertisement)
    (hf : ∀ pos, f pos = none) :
    ∀ (i : Nat) (ps : List Post),
      mixGo N f i ps = ps.map FeedItem.post := by
  intro i ps
  induction ps generalizing i with
  | nil => rfl
  | cons p rest ih =>
    by_cases h : (i + 1) % N = 0
    · simp [mixGo, h, hf (i + 1), ih (i + 1)]
    · simp [mixGo, h, ih (i + 1)]

end Feed

namespace Feed

/-! ## Mixer theorems -/

/-- C5: for `M` input posts and cadence `N ≥ 1` the mixer considers an
ad slot exactly after the post at each 1-based position divisible by
`N` — `⌊M/N⌋` slots in all — fills the slot exactly when ad selection
returns an ad, keeps all `M` posts in their original relative order,
and inserts ads without replacing any post (output length = posts +
ads). -/
theorem mixer_cadence (posts : List Post) (N : Nat)
    (f : Nat → Option Advertisement) (hN : 1 ≤ N) :
    ((mix_posts_with_ads posts N f).filterMap FeedItem.asPost = posts) ∧
    (((List.range' 1 posts.length).filter
        (fun pos => decide (pos % N = 0))).length = posts.length / N) ∧
    (countAds (mix_posts_with_ads posts N f) =
      ((List.range' 1 posts.length).filter
        (fun pos => decide (pos % N = 0) && (f pos).isSome)).length) ∧
    ((mix_posts_with_ads posts N f).length =
      posts.length + countAds (mix_posts_with_ads posts N f)) := by
  refine ⟨mixGo_filterMap N f 0 posts, ?_, ?_, mixGo_length N f 0 posts⟩
  · have h := multiples_in_range' N posts.length 0
    simpa using h
  · exact mixGo_countAds N f 0 posts

/-- A fixed demo advertisement for concrete witnesses. -/
def demoAd : Advertisement :=
  { id := "ad_001", target_audience := ["hiking", "camping"],
    is_active := true, start_date := none, end_date := none }

/-- A second demo advertisement for concrete witnesses. -/
def demoAdB : Advertisement :=
  { id := "ad_002", target_audience := ["coffee"],
    is_active := true, start_date := none, end_date := none }

/-- Three demo posts for concrete witnesses. -/
def demoPosts : List Post :=
  [{ id := 1, title := "a", tags := [], likes := 0 },
   { id := 2, title := "b", tags := [], likes := 0 },
   { id := 3, title := "c", tags := [], likes := 0 }]

/-- A demo ad-selection oracle: an ad only at position 2. -/
def demoOracle : Nat → Option Advertisement :=
  fun pos => if pos = 2 then some demoAd else none

/-- Witness for `mixer_cadence`: 3 posts at cadence 2 give one slot
(⌊3/2⌋), filled at position 2 by `demoOracle`. -/
theorem mixer_cadence_witness :
    ((mix_posts_with_ads demoPosts 2 demoOracle).filterMap FeedItem.asPost
      = demoPosts) ∧
    (((List.range' 1 demoPosts.length).filter
        (fun pos => decide (pos % 2 = 0))).length = demoPosts.length / 2) ∧
    (countAds (mix_posts_with_ads demoPosts 2 demoOracle) =
      ((List.range' 1 demoPosts.length).filter
        (fun pos => decide (pos % 2 = 0) && (demoOracle pos).isSome)).length) :=
  ⟨(mixer_cadence demoPosts 2 demoOracle (by decide)).1,
   (mixer_cadence demoPosts 2 demoOracle (by decide)).2.1,
   (mixer_cadence demoPosts 2 demoOracle (by decide)).2.2.1⟩

/-- C6: an empty campaign-active list makes `get_targeted_ad` return
`None` instead of raising, and the mixer treats an absent ad
gracefully: with ad selection returning `None` at every slot, the
output is exactly the posts, in order, with no ad items. -/
theorem empty_catalog_graceful (store : List Advertisement) (now : ℚ)
    (st : AdCacheState) (ui : PyInterests) (r : Nat) (posts : List Post)
    (N : Nat) (h : (get_active_ads store now st).ads = []) :
    (get_targeted_ad store now st ui r).ad = none ∧
    mix_posts_with_ads posts N (fun _ => none) = posts.map FeedItem.post := by
  constructor
  · simp [get_targeted_ad, selectFromActive, h]
  · exact mixGo_none N (fun _ => none) (fun _ => rfl) 0 posts

/-- Witness for `empty_catalog_graceful`: an empty store with the
initial (cold) cache yields no campaign-active ads, `get_targeted_ad`
returns `None`, and mixing `demoPosts` emits only the posts. -/
theorem empty_catalog_graceful_witness :
    (get_targeted_ad [] 0 initialAdCacheState (PyInterests.pylist []) 0).ad
      = none ∧
    mix_posts_with_ads demoPosts 10 (fun _ => none) =
      demoPosts.map FeedItem.post :=
  empty_catalog_graceful [] 0 initialAdCacheState (PyInterests.pylist []) 0
    demoPosts 10 rfl

/-- C10: `mix_smart_posts_with_ads` truncates its input to the first
`posts_per_page` posts before mixing — it mixes exactly
`posts.take posts_per_page`, and the posts appearing in its output are
exactly those first `posts_per_page` posts, so any later post is
dropped and never appears. -/
theorem smart_mixer_truncates (posts : List Post) (posts_per_page N : Nat)
    (f : Nat → Option Advertisement) :
    (mix_smart_posts_with_ads posts posts_per_page N f =
      mix_posts_with_ads (posts.take posts_per_page) N f) ∧
    ((mix_smart_posts_with_ads posts posts_per_page N f).filterMap
        FeedItem.asPost = posts.take posts_per_page) :=
  ⟨rfl, mixGo_filterMap N f 0 (posts.take posts_per_page)⟩

end Feed

namespace Feed

/-! ## Ad catalog cache theorems -/

/-- C7: with a populated cache entry no older than the 300s TTL,
`get_active_ads` returns the cached list unchanged without re-querying
the store; with no cache entry or an age beyond the TTL it performs one
rebuild (`is_active` fetch filtered through the campaign-window check)
and replaces both the cached list and the timestamp; and after
`clear_ad_cache` the next call always rebuilds. -/
theorem ad_cache_ttl (store : List Advertisement) (now : ℚ)
    (st : AdCacheState) (l : List Advertisement) :
    (st.ad_cache = some l → now - st.ad_cache_time ≤ CACHE_TIMEOUT →
      get_active_ads store now st =
        { ads := l, state := st, rebuilt := false }) ∧
    ((st.ad_cache = none ∨ now - st.ad_cache_time > CACHE_TIMEOUT) →
      get_active_ads store now st =
        { ads := rebuildActiveAds store now,
          state := { ad_cache := some (rebuildActiveAds store now),
                     ad_cache_time := now },
          rebuilt := true }) ∧
    ((get_active_ads store now clear_ad_cache).rebuilt = true) := by
  refine ⟨?_, ?_, ?_⟩
  · intro h1 h2
    have hcond : ¬(st.ad_cache = none ∨
        now - st.ad_cache_time > CACHE_TIMEOUT) := by
      push_neg
      exact ⟨by simp [h1], h2⟩
    simp only [get_active_ads, if_neg hcond]
    simp [h1]
  · intro h
    simp only [get_active_ads, if_pos h]
  · simp [get_active_ads, clear_ad_cache]

/-- Witness for `ad_cache_ttl`: a cache holding `[demoAd]` refreshed at
time 5 is returned unchanged at time 10 (age 5 ≤ 300). -/
theorem ad_cache_ttl_witness :
    get_active_ads [] 10 { ad_cache := some [demoAd], ad_cache_time := 5 } =
      { ads := [demoAd],
        state := { ad_cache := some [demoAd], ad_cache_time := 5 },
        rebuilt := false } :=
  (ad_cache_ttl [] 10 { ad_cache := some [demoAd], ad_cache_time := 5 }
    [demoAd]).1 rfl (by norm_num [CACHE_TIMEOUT])

/-! ## Ad selection lemmas -/

theorem mem_targetedPool {interest_names : List String}
    {ads : List Advertisement} {b : Advertisement}
    (h : b ∈ targetedPool interest_names ads) : b ∈ ads := by
  unfold targetedPool at h
  rw [List.mem_flatMap] at h
  obtain ⟨a, ha, hb⟩ := h
  split at hb
  · split at hb
    · rw [List.eq_of_mem_replicate hb]
      exact ha
    · cases hb
  · cases hb

theorem targetedPool_count (interest_names : List String) :
    ∀ ads : List Advertisement, ads.Nodup → ∀ ad ∈ ads,
      (targetedPool interest_names ads).count ad =
        numMatches ad interest_names := by
  intro ads
  induction ads with
  | nil => intro _ ad h; cases h
  | cons x xs ih =>
    intro hnd ad had
    rw [List.nodup_cons] at hnd
    obtain ⟨hx, hxs⟩ := hnd
    have hpool : targetedPool interest_names (x :: xs) =
        (if x.target_audience ≠ [] then
           if numMatches x interest_names ≠ 0 then
             List.replicate (numMatches x interest_names) x
           else []
         else []) ++ targetedPool interest_names xs := rfl
    rw [hpool, List.count_append]
    rcases List.mem_cons.mp had with rfl | hmem
    · have hzero : (targetedPool interest_names xs).count ad = 0 := by
        rw [List.count_eq_zero]
        intro hc
        exact hx (mem_targetedPool hc)
      rw [hzero]
      split_ifs with h1 h2
      · simp
      · simp only [List.count_nil, Nat.add_zero, Nat.zero_add]
        omega
      · rw [not_not] at h1
        simp [numMatches, h1]
    · have hne : ad ≠ x := fun hc => hx (hc ▸ hmem)
      have hblock : (if x.target_audience ≠ [] then
           if numMatches x interest_names ≠ 0 then
             List.replicate (numMatches x interest_names) x
           else []
         else []).count ad = 0 := by
        rw [List.count_eq_zero]
        intro hc
        split at hc
        · split at hc
          · exact hne (List.eq_of_mem_replicate hc)
          · cases hc
        · cases hc
      rw [hblock, Nat.zero_add]
      exact ih hxs ad hmem

theorem filter_over_map {α β : Type} (f : α → β) (p : β → Bool) :
    ∀ l : List α, (l.map f).filter p = (l.filter (fun x => p (f x))).map f := by
  intro l
  induction l with
  | nil => rfl
  | cons x xs ih =>
    simp only [List.map_cons, List.filter_cons, ih]
    by_cases h : p (f x) <;> simp [h]

theorem index_draws_count (dflt : Advertisement) :
    ∀ (l : List Advertisement) (a : Advertisement),
      ((List.range l.length).filter
        (fun i => decide (l.getD i dflt = a))).length = l.count a := by
  intro l
  induction l with
  | nil => intro a; rfl
  | cons x xs ih =>
    intro a
    rw [List.length_cons, List.range_succ_eq_map, List.filter_cons,
      filter_over_map]
    by_cases h : x = a
    · subst h
      simp only [List.getD_cons_zero, List.getD_cons_succ, decide_eq_true_eq]
      rw [if_pos (by simp)]
      simp [List.count_cons]
      simpa [List.getD_eq_getElem?_getD] using ih x
    · simp only [List.getD_cons_zero, List.getD_cons_succ, decide_eq_true_eq]
      rw [if_neg (by simp [h])]
      simp [List.count_cons, h]
      simpa [List.getD_eq_getElem?_getD] using ih a

end Feed

namespace Feed

/-! ## Ad selection theorems -/

/-- C1: with a non-empty interest collection (a QuerySet, as
feed/utils.py passes) and a non-empty pairwise-distinct campaign-active
list, every campaign-active ad occurs in the weighted candidate pool
exactly as many times as it shares distinct tags with the user's
interests (zero shares ⇒ zero occurrences); when the pool is non-empty
the returned ad is `random.choice` over the pool, and for each ad the
number of uniform draws `i < pool.length` selecting it equals its
multiplicity in the pool — so an ad with 3 matching tags is selected
with 3 times the probability of an ad with 1. -/
theorem ad_selection_weighted (interests : List String)
    (ads : List Advertisement) (r : Nat) (hi : interests ≠ [])
    (ha : ads ≠ []) (hnd : ads.Nodup) :
    (∀ ad ∈ ads, (targetedPool interests ads).count ad =
      numMatches ad interests) ∧
    (targetedPool interests ads ≠ [] →
      selectFromActive ads (PyInterests.qs interests) r =
        some (pyChoice (targetedPool interests ads) r)) ∧
    (∀ ad : Advertisement,
      ((List.range (targetedPool interests ads).length).filter
        (fun i => decide ((targetedPool interests ads).getD i default = ad))).length
        = (targetedPool interests ads).count ad) := by
  refine ⟨fun ad had => targetedPool_count interests ads hnd ad had, ?_,
    fun ad => index_draws_count default (targetedPool interests ads) ad⟩
  intro hpool
  have h1 : ads.isEmpty = false := by
    simpa [List.isEmpty_iff] using ha
  have h2 : (targetedPool interests ads).isEmpty = false := by
    simpa [List.isEmpty_iff] using hpool
  simp [selectFromActive, h1, h2, PyInterests.truthy, PyInterests.hasExistsAttr,
    PyInterests.existsQuery, PyInterests.interest_names, List.isEmpty_iff, hi,
    pyChoice]

/-- Witness for `ad_selection_weighted`: interests
`["hiking", "camping", "coffee"]` against `demoAd` (2 matching tags)
and `demoAdB` (1 matching tag): `demoAd` fills 2 of the 3 pool places
and the pool pick is returned. -/
theorem ad_selection_weighted_witness :
    ((targetedPool ["hiking", "camping", "coffee"] [demoAd, demoAdB]).count
      demoAd = numMatches demoAd ["hiking", "camping", "coffee"]) ∧
    (selectFromActive [demoAd, demoAdB]
        (PyInterests.qs ["hiking", "camping", "coffee"]) 0 =
      some (pyChoice
        (targetedPool ["hiking", "camping", "coffee"] [demoAd, demoAdB]) 0)) :=
  ⟨(ad_selection_weighted ["hiking", "camping", "coffee"] [demoAd, demoAdB] 0
      (by decide) (by decide) (by decide)).1 demoAd (by simp),
   (ad_selection_weighted ["hiking", "camping", "coffee"] [demoAd, demoAdB] 0
      (by decide) (by decide) (by decide)).2.1 (by decide)⟩

/-- C9: the interests the feed-mixing path hands to `get_targeted_ad`
are a plain Python list (what `get_user_interests` of feed/utils_ads.py
returns), a list has no `exists` attribute, so the weighted-targeting
branch is skipped and the result is a uniform `random.choice` over all
campaign-active ads, independent of the interests. -/
theorem pylist_interests_skip_targeting (l : List String)
    (ads : List Advertisement) (r : Nat) (ha : ads ≠ []) :
    (get_user_interests_cached l = PyInterests.pylist l) ∧
    ((get_user_interests_cached l).hasExistsAttr = false) ∧
    (selectFromActive ads (get_user_interests_cached l) r =
      some (pyChoice ads r)) ∧
    (selectFromActive ads (get_user_interests_cached l) r =
      selectFromActive ads (get_user_interests_cached []) r) := by
  have h1 : ads.isEmpty = false := by
    simpa [List.isEmpty_iff] using ha
  refine ⟨rfl, rfl, ?_, ?_⟩ <;>
    simp [get_user_interests_cached, selectFromActive, PyInterests.truthy,
      PyInterests.hasExistsAttr, h1]

/-- Witness for `pylist_interests_skip_targeting`: even though
`"hiking"` matches `demoAd`'s audience, the list-typed interests leave
the choice uniform over both ads. -/
theorem pylist_interests_skip_targeting_witness :
    (selectFromActive [demoAd, demoAdB]
        (get_user_interests_cached ["hiking"]) 1 =
      some (pyChoice [demoAd, demoAdB] 1)) ∧
    pyChoice [demoAd, demoAdB] 1 = demoAdB :=
  ⟨(pylist_interests_skip_targeting ["hiking"] [demoAd, demoAdB] 1
      (by decide)).2.2.1,
   by decide⟩

end Feed
